import Mathlib

/- Verification development for the bylaw-db repository: a shallow embedding of
   the database schema behaviour (part_017 / part_018), of the frontend helpers
   (supabase.ts, BylawVersionHistory.tsx, ADURequirements.tsx,
   municipalityService.ts), and of the capture/preserve/version pipeline
   described by the design document, together with proofs about them. -/

namespace BylawDb

/-! Frontend API error helper, from the supabase service module (part_011,
lines 94-110). -/

/-- A PostgREST-style error value as consumed by handleApiError: an optional
code and an optional message; an absent or empty message models a falsy
JavaScript error.message. -/
structure ApiError where
  code : Option String
  message : Option String
deriving DecidableEq, Repr

/-- Embedding of handleApiError (part_011 lines 94-110): every branch throws,
modelled as Except.error carrying the thrown message; the code checks come
first, then a truthy message, then the generic fallback. -/
def handleApiError (e : ApiError) : Except String Unit :=
  if e.code = some "PGRST301" then Except.error "No data found"
  else if e.code = some "PGRST116" then Except.error "Invalid query parameters"
  else
    match e.message with
    | some m => if m = "" then Except.error "An unexpected error occurred" else Except.error m
    | none => Except.error "An unexpected error occurred"

/-! Version history widget, from BylawVersionHistory.tsx. -/

/-- A bylaw version as read by calculateContentDiff: its identifier, its
version number, and its content string. -/
structure BylawVersion where
  id : String
  version_number : Nat
  content : String
deriving DecidableEq, Repr

/-- Embedding of calculateContentDiff (BylawVersionHistory.tsx lines 47-64).
JavaScript findIndex yields -1 when the version is absent, array indexing out
of range yields undefined (none here), and Math.max(0, x) clamps at zero. -/
def calculateContentDiff (versions : List BylawVersion) (version : BylawVersion) :
    Int × Int :=
  let currentIndex : Int :=
    match versions.findIdx? (fun v => v.id == version.id) with
    | some i => (i : Int)
    | none => -1
  match versions.get? (currentIndex + 1).toNat with
  | none => ((version.content.length : Int), 0)
  | some previousVersion =>
    let currentLength : Int := (version.content.length : Int)
    let previousLength : Int := (previousVersion.content.length : Int)
    (max 0 (currentLength - previousLength), max 0 (previousLength - currentLength))

/-! ADU requirement display, from ADURequirements.tsx. -/

/-- The requirement categories of the ADURequirement interface
(ADURequirements.tsx lines 4-13). -/
inductive ADUCategory
  | zoning
  | parking
  | size
  | design
  | permit
  | other
deriving DecidableEq, Repr

/-- The ADURequirement record displayed by the frontend (ADURequirements.tsx
lines 4-13); confidence is the JavaScript number field, an integer percentage
in the mock data. -/
structure ADURequirement where
  id : String
  category : ADUCategory
  requirement : String
  value : Option String
  unit : Option String
  confidence : Nat
  source_text : String
  page_reference : Option String
deriving DecidableEq, Repr

/-- Embedding of mockRequirements (ADURequirements.tsx lines 40-95), the
requirement facts produced by extractADURequirements and displayed by the
component. -/
def mockRequirements : List ADURequirement :=
  [ { id := "1"
      category := ADUCategory.zoning
      requirement := "Permitted in R-1 and R-2 residential zones"
      value := none
      unit := none
      confidence := 95
      source_text := "Accessory dwelling units are permitted as a conditional use in R-1 and R-2 residential zones..."
      page_reference := some "Section 4.2.1" }
  , { id := "2"
      category := ADUCategory.size
      requirement := "Maximum floor area"
      value := some "1000"
      unit := some "sq ft"
      confidence := 88
      source_text := "The maximum floor area of an accessory dwelling unit shall not exceed 1,000 square feet..."
      page_reference := some "Section 4.2.3" }
  , { id := "3"
      category := ADUCategory.parking
      requirement := "Additional parking spaces required"
      value := some "1"
      unit := some "spaces"
      confidence := 92
      source_text := "One additional off-street parking space shall be provided for each accessory dwelling unit..."
      page_reference := some "Section 4.2.5" }
  , { id := "4"
      category := ADUCategory.design
      requirement := "Must maintain character of neighborhood"
      value := none
      unit := none
      confidence := 76
      source_text := "The design of the accessory dwelling unit shall be compatible with the architectural character of the primary dwelling and neighborhood..."
      page_reference := some "Section 4.2.4" }
  , { id := "5"
      category := ADUCategory.permit
      requirement := "Conditional use permit required"
      value := none
      unit := none
      confidence := 98
      source_text := "A conditional use permit is required for all accessory dwelling units..."
      page_reference := some "Section 4.2.2" }
  , { id := "6"
      category := ADUCategory.size
      requirement := "Minimum lot size"
      value := some "7000"
      unit := some "sq ft"
      confidence := 65
      source_text := "Properties with accessory dwelling units should have adequate lot size to accommodate the additional use..."
      page_reference := some "Section 4.2.1" }
  ]

/-- Modelled from the spec: the Requirement Extractor's imperial-to-metric unit
normalization (the adu_extractor module converting square feet to square
meters is documented but absent from the snapshot); one square foot is
0.09290304 square meters. -/
def sqftToSqm (x : ℚ) : ℚ := x * (9290304 / 100000000)

/-! Audit logging mechanism, from the database schema (part_018, lines
263-317): audit rows are produced by a database-level trigger attached to the
core tables, firing on INSERT, UPDATE and DELETE. -/

/-- The SQL trigger operations handled by audit_trigger_function. -/
inductive TriggerOp
  | INSERT
  | UPDATE
  | DELETE
deriving DecidableEq, Repr

/-- A generic row of an audited table: its id and an opaque payload standing
for the remaining columns. -/
structure TableRow where
  id : Nat
  payload : String
deriving DecidableEq, Repr

/-- A row of the audit_log table as written by audit_trigger_function
(part_018 lines 274-301): action, table name, record id, and the old and new
row values recorded per operation kind. -/
structure AuditLogRow where
  action : String
  table_name : String
  record_id : Nat
  old_values : Option TableRow
  new_values : Option TableRow
deriving DecidableEq, Repr

/-- Embedding of audit_trigger_function (part_018 lines 264-304): DELETE
records OLD, UPDATE records OLD and NEW keyed by NEW.id, INSERT records NEW;
any other combination returns NULL and writes nothing. -/
def audit_trigger_function :
    TriggerOp → String → Option TableRow → Option TableRow → Option AuditLogRow
  | TriggerOp.DELETE, tbl, some oldRow, _ =>
      some { action := "DELETE", table_name := tbl, record_id := oldRow.id
             old_values := some oldRow, new_values := none }
  | TriggerOp.UPDATE, tbl, some oldRow, some newRow =>
      some { action := "UPDATE", table_name := tbl, record_id := newRow.id
             old_values := some oldRow, new_values := some newRow }
  | TriggerOp.INSERT, tbl, _, some newRow =>
      some { action := "INSERT", table_name := tbl, record_id := newRow.id
             old_values := none, new_values := some newRow }
  | _, _, _, _ => none

/-- The tables to which the schema attaches the audit trigger (part_018 lines
306-317). -/
def auditedTables : List String :=
  ["municipalities", "bylaws", "bylaw_versions", "adu_requirements"]

/-- A relational store: named tables of rows plus the audit_log table. -/
structure SqlDb where
  tables : List (String × List TableRow)
  audit_log : List AuditLogRow
deriving DecidableEq, Repr

/-- Row lookup by table name and id. -/
def lookupRow (db : SqlDb) (tbl : String) (rid : Nat) : Option TableRow :=
  match db.tables.find? (fun t => t.1 == tbl) with
  | none => none
  | some t => t.2.find? (fun r => r.id == rid)

/-- A storage-layer INSERT: the row is added to the table, and, when the table
carries an audit trigger (part_018 lines 306-317), the trigger function
appends the audit row as a side effect of the insert itself. -/
def insertInto (db : SqlDb) (tbl : String) (r : TableRow) : SqlDb :=
  let withRow : SqlDb :=
    { db with tables := db.tables.map (fun t => if t.1 == tbl then (t.1, r :: t.2) else t) }
  if auditedTables.contains tbl then
    match audit_trigger_function TriggerOp.INSERT tbl none (some r) with
    | some a => { withRow with audit_log := a :: withRow.audit_log }
    | none => withRow
  else withRow

/-- A storage-layer UPDATE of the row sharing the new row's id; the audit
trigger fires on audited tables. -/
def updateIn (db : SqlDb) (tbl : String) (newRow : TableRow) : SqlDb :=
  match lookupRow db tbl newRow.id with
  | none => db
  | some oldRow =>
    let withRow : SqlDb :=
      { db with tables := db.tables.map (fun t =>
          if t.1 == tbl then (t.1, t.2.map (fun r => if r.id == newRow.id then newRow else r))
          else t) }
    if auditedTables.contains tbl then
      match audit_trigger_function TriggerOp.UPDATE tbl (some oldRow) (some newRow) with
      | some a => { withRow with audit_log := a :: withRow.audit_log }
      | none => withRow
    else withRow

/-- A storage-layer DELETE by id; the audit trigger fires on audited tables. -/
def deleteFrom (db : SqlDb) (tbl : String) (rid : Nat) : SqlDb :=
  match lookupRow db tbl rid with
  | none => db
  | some oldRow =>
    let withoutRow : SqlDb :=
      { db with tables := db.tables.map (fun t =>
          if t.1 == tbl then (t.1, t.2.filter (fun r => !(r.id == rid))) else t) }
    if auditedTables.contains tbl then
      match audit_trigger_function TriggerOp.DELETE tbl (some oldRow) none with
      | some a => { withoutRow with audit_log := a :: withoutRow.audit_log }
      | none => withoutRow
    else withoutRow

/-! Municipality deletion, from municipalityService.ts (lines 71-79) issuing
DELETE /api/municipalities/id, interpreted over the schema (part_017): the
municipalities row is removed and the dependent source_documents,
scraping_configs and scraping_jobs rows cascade via ON DELETE CASCADE. -/

/-- A municipalities row (part_017 lines 9-19), with the fields the deletion
claim needs. -/
structure Municipality where
  id : Nat
  name : String
  scraping_enabled : Bool
deriving DecidableEq, Repr

/-- A source_documents row reference to its municipality (part_017 line 24,
ON DELETE CASCADE). -/
structure SourceDocumentRow where
  id : Nat
  municipality_id : Nat
deriving DecidableEq, Repr

/-- A scraping_jobs row reference to its municipality (part_017 line 127,
ON DELETE CASCADE). -/
structure ScrapingJobRow where
  id : Nat
  municipality_id : Nat
  status : String
deriving DecidableEq, Repr

/-- The slice of the relational state touched by municipality deletion. -/
structure MunicipalityDb where
  municipalities : List Municipality
  source_documents : List SourceDocumentRow
  scraping_jobs : List ScrapingJobRow
deriving DecidableEq, Repr

/-- Embedding of MunicipalityService.deleteMunicipality (the frontend issues a
hard DELETE of the municipality row); the schema's ON DELETE CASCADE clauses
(part_017 lines 24, 127) remove the dependent rows with it. -/
def deleteMunicipality (db : MunicipalityDb) (mid : Nat) : MunicipalityDb :=
  { municipalities := db.municipalities.filter (fun m => !(m.id == mid))
    source_documents := db.source_documents.filter (fun d => !(d.municipality_id == mid))
    scraping_jobs := db.scraping_jobs.filter (fun j => !(j.municipality_id == mid)) }

/-! The capture/preserve/version pipeline. Modelled from the spec: the
orchestrator, preserver and version manager (base_scraper.py,
document_preserver.py, job_manager.py) are documented but absent from the
snapshot; the model follows sections 4.1, 4.3 and 4.4 of the design, over the
schema's column names (part_017). -/

/-- A tracked site (municipality) as the orchestrator sees it: enabled or
disabled. -/
structure TrackedSite where
  id : Nat
  enabled : Bool
deriving DecidableEq, Repr

/-- CaptureJob lifecycle states. -/
inductive JobStatus
  | pending
  | running
  | completed
  | failed
  | cancelled
deriving DecidableEq, Repr

/-- One capture job record in the job registry. -/
structure CaptureJob where
  id : Nat
  siteId : Nat
  status : JobStatus
deriving DecidableEq, Repr

/-- Errors of the job trigger interface. -/
inductive JobError
  | siteNotFound
  | siteDisabled
  | conflict
deriving DecidableEq, Repr

/-- Preservation status of a SourceDocument (schema part_017 line 37). -/
inductive PreservationStatus
  | pending
  | preserved
  | failed
deriving DecidableEq, Repr

/-- Modelled from the spec: a SourceDocument provenance record, with the
schema's column names (part_017 lines 22-40). -/
structure SourceDocument where
  id : Nat
  municipality_id : Nat
  document_url : String
  content_hash : String
  preservation_status : PreservationStatus
  preservation_error : Option String
deriving DecidableEq, Repr

/-- Modelled from the spec: one immutable document version (schema part_017
lines 62-83); seq is the per-document version_number. -/
structure DocumentVersion where
  seq : Nat
  fingerprint : String
  sourceDocId : Nat
  isCurrent : Bool
deriving DecidableEq, Repr

/-- A tracked document (bylaw) owning its version list, newest first. -/
structure TrackedDocument where
  id : Nat
  versions : List DocumentVersion
deriving DecidableEq, Repr

/-- Result of the change detector (spec section 4.4). -/
inductive CaptureResult
  | noChange
  | versioned (seq : Nat)
deriving DecidableEq, Repr

/-- The pipeline state: sites, the job registry, the preserved provenance
records, and the tracked documents. -/
structure PipelineState where
  sites : List TrackedSite
  jobs : List CaptureJob
  sourceDocs : List SourceDocument
  docs : List TrackedDocument
  nextJobId : Nat
  nextSourceDocId : Nat
deriving DecidableEq, Repr

/-- Modelled from the spec (section 4.3): the SHA-256 fingerprint over
canonicalized content, modelled as the canonicalized content itself, a
deterministic collision-free stand-in. -/
def contentFingerprint (content : String) : String := content

/-- Whether a job for the site is already in the running state. -/
def hasRunningJob (s : PipelineState) (siteId : Nat) : Bool :=
  s.jobs.any (fun j => j.siteId == siteId && j.status == JobStatus.running)

/-- Modelled from the spec (section 4.1): runJob validates the site is
enabled, rejects with a conflict when a job for the same site is already
running, and otherwise registers the new job; error outcomes leave the
registry untouched. -/
def runJob (s : PipelineState) (siteId : Nat) :
    Except JobError Nat × PipelineState :=
  match s.sites.find? (fun site => site.id == siteId) with
  | none => (Except.error JobError.siteNotFound, s)
  | some site =>
    if site.enabled = false then (Except.error JobError.siteDisabled, s)
    else if hasRunningJob s siteId then (Except.error JobError.conflict, s)
    else
      (Except.ok s.nextJobId,
       { s with
         jobs := { id := s.nextJobId, siteId := siteId, status := JobStatus.running } :: s.jobs
         nextJobId := s.nextJobId + 1 })

/-- Modelled from the spec (section 4.1): a running job reaches exactly one of
the terminal states; other jobs are untouched. -/
def finishJob (s : PipelineState) (jobId : Nat) (final : JobStatus) : PipelineState :=
  { s with
    jobs := s.jobs.map (fun j =>
      if j.id == jobId && j.status == JobStatus.running then { j with status := final } else j) }

/-- Modelled from the spec (section 4.3): preserve writes the artifacts and
records the SourceDocument, preserved once every artifact write is confirmed,
failed with preservation_error as soon as any write fails; it only ever
appends a fresh record. -/
def preserve (s : PipelineState) (siteId : Nat) (url content : String)
    (writeResults : List Bool) (writeError : String) :
    SourceDocument × PipelineState :=
  let ok := writeResults.all (fun b => b)
  let sd : SourceDocument :=
    { id := s.nextSourceDocId
      municipality_id := siteId
      document_url := url
      content_hash := contentFingerprint content
      preservation_status :=
        if ok then PreservationStatus.preserved else PreservationStatus.failed
      preservation_error := if ok then none else some writeError }
  (sd, { s with sourceDocs := sd :: s.sourceDocs, nextSourceDocId := s.nextSourceDocId + 1 })

/-- The current version of a tracked document. -/
def currentVersion (d : TrackedDocument) : Option DocumentVersion :=
  d.versions.find? (fun v => v.isCurrent)

/-- The atomic currency flip: the next sequence number is allocated, every
prior version loses is_current, and the new version alone carries it. -/
def promoteNewVersion (d : TrackedDocument) (fp : String) (sdId : Nat) :
    CaptureResult × TrackedDocument :=
  let n := d.versions.length + 1
  let cleared := d.versions.map (fun v => { v with isCurrent := false })
  (CaptureResult.versioned n,
   { d with versions := { seq := n, fingerprint := fp, sourceDocId := sdId, isCurrent := true } :: cleared })

/-- Modelled from the spec (section 4.4): applyCapture compares the current
version's fingerprint with the new SourceDocument's; on a match it returns
NoChange and leaves the document untouched, otherwise (or when no version
exists yet) it creates the next version and atomically transfers currency. -/
def applyCapture (d : TrackedDocument) (sd : SourceDocument) :
    CaptureResult × TrackedDocument :=
  match currentVersion d with
  | some cur =>
    if cur.fingerprint == sd.content_hash then (CaptureResult.noChange, d)
    else promoteNewVersion d sd.content_hash sd.id
  | none => promoteNewVersion d sd.content_hash sd.id

/-- applyCapture lifted to the pipeline state: the tracked document found by
id is replaced by its updated value; nothing else changes. -/
def applyCaptureState (s : PipelineState) (docId : Nat) (sd : SourceDocument) :
    CaptureResult × PipelineState :=
  match s.docs.find? (fun d => d.id == docId) with
  | none => (CaptureResult.noChange, s)
  | some d =>
    let r := applyCapture d sd
    (r.1, { s with docs := s.docs.map (fun d0 => if d0.id == docId then r.2 else d0) })

/-- One full successful capture of a document: preservation of the fetched
content (all artifact writes confirmed) followed by change detection. -/
def captureRun (s : PipelineState) (docId siteId : Nat) (url content : String) :
    CaptureResult × PipelineState :=
  let p := preserve s siteId url content [true] ""
  applyCaptureState p.2 docId p.1

/-- The versions of the tracked document found by id, empty when absent. -/
def docVersions (s : PipelineState) (docId : Nat) : List DocumentVersion :=
  match s.docs.find? (fun d => d.id == docId) with
  | none => []
  | some d => d.versions

/-- The pipeline's atomic operations as a step relation: successful job
registration, job completion, preservation, and change detection over a
preserved provenance record. -/
inductive Step : PipelineState → PipelineState → Prop
  | runJob (s : PipelineState) (siteId jobId : Nat) (s' : PipelineState) :
      runJob s siteId = (Except.ok jobId, s') → Step s s'
  | finishJob (s : PipelineState) (jobId : Nat) (final : JobStatus) :
      (final = JobStatus.completed ∨ final = JobStatus.failed ∨ final = JobStatus.cancelled) →
      Step s (finishJob s jobId final)
  | preserve (s : PipelineState) (siteId : Nat) (url content : String)
      (writeResults : List Bool) (writeError : String) :
      Step s (preserve s siteId url content writeResults writeError).2
  | applyCapture (s : PipelineState) (docId : Nat) (sd : SourceDocument) :
      sd ∈ s.sourceDocs → sd.preservation_status = PreservationStatus.preserved →
      Step s (applyCaptureState s docId sd).2

/-- An initial state: configured sites, tracked documents with no versions
yet, an empty job registry and no provenance records. -/
def initState (sites : List TrackedSite) (docIds : List Nat) : PipelineState :=
  { sites := sites
    jobs := []
    sourceDocs := []
    docs := docIds.map (fun i => { id := i, versions := [] })
    nextJobId := 0
    nextSourceDocId := 0 }

/-- States reachable from an initial state by pipeline operations. -/
inductive Reachable : PipelineState → Prop
  | init (sites : List TrackedSite) (docIds : List Nat) :
      Reachable (initState sites docIds)
  | step {s s' : PipelineState} : Reachable s → Step s s' → Reachable s'

/-- The descending list n, n-1, ..., 1 of sequence numbers, newest first. -/
def seqList : Nat → List Nat
  | 0 => []
  | n + 1 => (n + 1) :: seqList n

/-- The currency shape maintained per document: the newest version alone is
current. -/
def currencyShape : List DocumentVersion → Prop
  | [] => True
  | v :: vs => v.isCurrent = true ∧ ∀ u ∈ vs, u.isCurrent = false

/-- The per-document invariant: sequence numbers are exactly n, ..., 1 newest
first, and only the newest version is current. -/
def docInvariant (d : TrackedDocument) : Prop :=
  d.versions.map (fun v => v.seq) = seqList d.versions.length ∧ currencyShape d.versions

/-! Demonstration values used by the concrete witnesses. -/

/-- A one-site, one-document initial state. -/
def demoS0 : PipelineState := initState [{ id := 1, enabled := true }] [5]

/-- The provenance record of a first capture in the demonstration state. -/
def demoSd : SourceDocument := (preserve demoS0 1 "u" "c" [true] "").1

/-- The demonstration state after preservation. -/
def demoS1 : PipelineState := (preserve demoS0 1 "u" "c" [true] "").2

/-- The demonstration state after the first change detection. -/
def demoS2 : PipelineState := (applyCaptureState demoS1 5 demoSd).2

/-- The tracked document of the demonstration state after one capture. -/
def demoDoc : TrackedDocument :=
  { id := 5, versions := [{ seq := 1, fingerprint := "c", sourceDocId := 0, isCurrent := true }] }

/-- The demonstration state after a successful job registration. -/
def demoSJob : PipelineState :=
  { sites := [{ id := 1, enabled := true }]
    jobs := [{ id := 0, siteId := 1, status := JobStatus.running }]
    sourceDocs := []
    docs := [{ id := 5, versions := [] }]
    nextJobId := 1
    nextSourceDocId := 0 }

/-! Theorems. -/

/-- C10 counterexample: an input whose code is not PGRST301 still yields the
thrown message No data found, because its own message field carries that text;
this refutes the exactly-when reading of the message-to-code correspondence. -/
theorem handleApiError_message_without_code :
    handleApiError { code := some "X", message := some "No data found" } =
      Except.error "No data found" ∧
    ({ code := some "X", message := some "No data found" } : ApiError).code ≠
      some "PGRST301" := by
  exact ⟨rfl, by decide⟩

/-- C10 (amended): handleApiError never returns normally; it throws No data
found when the code is PGRST301, Invalid query parameters when the code is
PGRST116, otherwise the input's own non-empty message, and the generic
fallback when the message is absent or empty. -/
theorem handleApiError_spec (e : ApiError) :
    (∀ u : Unit, handleApiError e ≠ Except.ok u) ∧
    (e.code = some "PGRST301" → handleApiError e = Except.error "No data found") ∧
    (e.code ≠ some "PGRST301" → e.code = some "PGRST116" →
      handleApiError e = Except.error "Invalid query parameters") ∧
    (∀ m : String, e.code ≠ some "PGRST301" → e.code ≠ some "PGRST116" →
      e.message = some m → m ≠ "" → handleApiError e = Except.error m) ∧
    (e.code ≠ some "PGRST301" → e.code ≠ some "PGRST116" →
      (e.message = none ∨ e.message = some "") →
      handleApiError e = Except.error "An unexpected error occurred") := by
  obtain ⟨c, m⟩ := e
  by_cases h1 : c = some "PGRST301"
  · simp [handleApiError, h1]
  · by_cases h2 : c = some "PGRST116"
    · simp [handleApiError, h1, h2]
    · cases m with
      | none => simp [handleApiError, h1, h2]
      | some mv =>
        by_cases h3 : mv = ""
        · simp [handleApiError, h1, h2, h3]
        · simp [handleApiError, h1, h2, h3]

/-- Concrete check of handleApiError_spec: the PGRST301 branch and the
own-message branch at explicit inputs. -/
theorem handleApiError_spec_witness :
    handleApiError { code := some "PGRST301", message := none } =
      Except.error "No data found" ∧
    handleApiError { code := none, message := some "boom" } = Except.error "boom" := by
  refine ⟨(handleApiError_spec { code := some "PGRST301", message := none }).2.1 rfl, ?_⟩
  exact (handleApiError_spec { code := none, message := some "boom" }).2.2.2.1 "boom"
    (by decide) (by decide) rfl (by decide)

/-- C9: calculateContentDiff yields nonnegative added and removed counts of
which at most one is positive, and for a version whose successor slot in the
loaded list is empty (no previous version) it yields the full content length
as added and zero removed. -/
theorem calculateContentDiff_eq (versions : List BylawVersion) (version : BylawVersion) :
    calculateContentDiff versions version =
      match versions.get?
          ((match versions.findIdx? (fun v : BylawVersion => v.id == version.id) with
            | some i => (i : Int)
            | none => -1) + 1).toNat with
      | none => ((version.content.length : Int), 0)
      | some prev =>
        (max 0 ((version.content.length : Int) - (prev.content.length : Int)),
         max 0 ((prev.content.length : Int) - (version.content.length : Int))) := rfl

/-- C9: calculateContentDiff yields nonnegative added and removed counts of
which at most one is positive, and for a version whose successor slot in the
loaded list is empty (no previous version) it yields the full content length
as added and zero removed. -/
theorem calculateContentDiff_spec (versions : List BylawVersion) (version : BylawVersion) :
    (0 ≤ (calculateContentDiff versions version).1 ∧
     0 ≤ (calculateContentDiff versions version).2 ∧
     ((calculateContentDiff versions version).1 = 0 ∨
      (calculateContentDiff versions version).2 = 0)) ∧
    (∀ i : Nat, versions.findIdx? (fun v : BylawVersion => v.id == version.id) = some i →
      versions.get? (i + 1) = none →
      calculateContentDiff versions version = ((version.content.length : Int), 0)) := by
  constructor
  · rw [calculateContentDiff_eq]
    cases hg : versions.get?
        ((match versions.findIdx? (fun v : BylawVersion => v.id == version.id) with
          | some i => (i : Int)
          | none => -1) + 1).toNat with
    | none =>
      simp only [hg]
      refine ⟨Int.natCast_nonneg _, ?_, ?_⟩ <;> simp
    | some prev =>
      simp only [hg]
      refine ⟨le_max_left _ _, le_max_left _ _, ?_⟩
      rcases le_total (version.content.length : Int) (prev.content.length : Int) with h | h
      · exact Or.inl (max_eq_left (by omega))
      · exact Or.inr (max_eq_left (by omega))
  · intro i hfind hnone
    rw [calculateContentDiff_eq]
    simp only [hfind]
    have ht : (((i : Nat) : Int) + 1).toNat = i + 1 := by omega
    rw [ht, hnone]

/-- Concrete check of calculateContentDiff_spec: a singleton history, where
the only version has no predecessor. -/
theorem calculateContentDiff_spec_witness :
    calculateContentDiff [{ id := "a", version_number := 1, content := "xy" }]
        { id := "a", version_number := 1, content := "xy" } =
      ((("xy" : String).length : Int), 0) := by
  exact (calculateContentDiff_spec [{ id := "a", version_number := 1, content := "xy" }]
    { id := "a", version_number := 1, content := "xy" }).2 0 (by decide) (by decide)

/-- C5 counterexample: the first displayed requirement fact carries confidence
95, which is outside the closed interval from 0 to 1. -/
theorem mock_confidence_exceeds_unit_interval :
    (mockRequirements.map (fun r => r.confidence)).head? = some 95 ∧
    ¬ (95 : Nat) ≤ 1 := by
  exact ⟨rfl, by decide⟩

/-- C5 (amended): every requirement fact displayed by the component carries a
percentage confidence, a natural number at most 100. -/
theorem mock_confidence_percentage_bound (r : ADURequirement)
    (hr : r ∈ mockRequirements) : r.confidence ≤ 100 := by
  fin_cases hr <;> decide

/-- Concrete check of mock_confidence_percentage_bound at the first displayed
fact. -/
theorem mock_confidence_percentage_bound_witness :
    ADURequirement.confidence
      { id := "1"
        category := ADUCategory.zoning
        requirement := "Permitted in R-1 and R-2 residential zones"
        value := none
        unit := none
        confidence := 95
        source_text := "Accessory dwelling units are permitted as a conditional use in R-1 and R-2 residential zones..."
        page_reference := some "Section 4.2.1" } ≤ 100 := by
  exact mock_confidence_percentage_bound _ (by decide)

/-- C6 counterexample: the size fact produced for the floor-area sentence
carries the imperial value 1000 with unit sq ft, and 1000 is not within 0.1 of
92.9, so the displayed value is not normalized to metric units. -/
theorem mock_floor_area_not_normalized :
    (mockRequirements.get? 1).map (fun r => (r.category, r.value, r.unit)) =
      some (ADUCategory.size, some "1000", some "sq ft") ∧
    ¬ |(1000 : ℚ) - 929 / 10| ≤ 1 / 10 := by
  constructor
  · rfl
  · rw [abs_sub_le_iff]
    norm_num

/-- C6 (amended): the floor-area fact has category size, value 1000, unit
sq ft; its metric equivalent under the standard square-foot conversion is
within 0.1 of 92.9 square meters; and its source snippet is the literal mock
sentence containing the matched requirement. -/
theorem mock_floor_area_fact :
    (mockRequirements.get? 1).map
        (fun r => (r.category, r.requirement, r.value, r.unit, r.source_text)) =
      some (ADUCategory.size, "Maximum floor area", some "1000", some "sq ft",
        "The maximum floor area of an accessory dwelling unit shall not exceed 1,000 square feet...") ∧
    |sqftToSqm 1000 - 929 / 10| ≤ 1 / 10 := by
  constructor
  · rfl
  · simp only [sqftToSqm]
    rw [abs_sub_le_iff]
    norm_num

/-- C7 counterexample: a bare storage-layer insert into the bylaws table, with
no explicit emission step performed by any component, appends an audit row via
the attached database trigger. -/
theorem audit_row_from_storage_trigger :
    (insertInto { tables := [("bylaws", [])], audit_log := [] } "bylaws"
        { id := 1, payload := "b" }).audit_log =
      [{ action := "INSERT", table_name := "bylaws", record_id := 1,
         old_values := none, new_values := some { id := 1, payload := "b" } }] ∧
    auditedTables.contains "bylaws" = true := by
  exact ⟨by decide, by decide⟩

/-- C7 (amended): audit rows for mutations of the audited core tables are
produced by the database trigger inside the storage operations themselves:
each insert, update or delete on an audited table appends exactly the trigger
function's row, and mutations of non-audited tables append none. -/
theorem audit_emission_is_trigger_side_effect (db : SqlDb) (tbl : String) (r : TableRow) :
    (auditedTables.contains tbl = true →
      (insertInto db tbl r).audit_log =
        { action := "INSERT", table_name := tbl, record_id := r.id,
          old_values := none, new_values := some r } :: db.audit_log) ∧
    (auditedTables.contains tbl = false →
      (insertInto db tbl r).audit_log = db.audit_log) ∧
    (∀ oldRow : TableRow, auditedTables.contains tbl = true →
      lookupRow db tbl r.id = some oldRow →
      (updateIn db tbl r).audit_log =
        { action := "UPDATE", table_name := tbl, record_id := r.id,
          old_values := some oldRow, new_values := some r } :: db.audit_log) ∧
    (∀ oldRow : TableRow, auditedTables.contains tbl = true →
      lookupRow db tbl oldRow.id = some oldRow →
      (deleteFrom db tbl oldRow.id).audit_log =
        { action := "DELETE", table_name := tbl, record_id := oldRow.id,
          old_values := some oldRow, new_values := none } :: db.audit_log) := by
  refine ⟨?_, ?_, ?_, ?_⟩
  · intro h
    have h' : tbl ∈ auditedTables := by simpa using h
    simp [insertInto, audit_trigger_function, h']
  · intro h
    have h' : tbl ∉ auditedTables := by simpa using h
    simp [insertInto, audit_trigger_function, h']
  · intro oldRow h hl
    have h' : tbl ∈ auditedTables := by simpa using h
    simp [updateIn, audit_trigger_function, h', hl]
  · intro oldRow h hl
    have h' : tbl ∈ auditedTables := by simpa using h
    simp [deleteFrom, audit_trigger_function, h', hl]

/-- Concrete check of audit_emission_is_trigger_side_effect: an insert into
the municipalities table. -/
theorem audit_emission_is_trigger_side_effect_witness :
    (insertInto { tables := [("municipalities", [])], audit_log := [] } "municipalities"
        { id := 2, payload := "m" }).audit_log =
      [{ action := "INSERT", table_name := "municipalities", record_id := 2,
         old_values := none, new_values := some { id := 2, payload := "m" } }] := by
  exact (audit_emission_is_trigger_side_effect
    { tables := [("municipalities", [])], audit_log := [] } "municipalities"
    { id := 2, payload := "m" }).1 (by decide)

/-- C8 counterexample: a created municipality is hard-deleted by
deleteMunicipality: after the call its record is gone from the store. -/
theorem municipality_hard_deleted :
    ({ id := 1, name := "Toronto", scraping_enabled := true } : Municipality) ∈
      ({ municipalities := [{ id := 1, name := "Toronto", scraping_enabled := true }]
         source_documents := []
         scraping_jobs := [{ id := 7, municipality_id := 1, status := "completed" }] } :
         MunicipalityDb).municipalities ∧
    (deleteMunicipality
        { municipalities := [{ id := 1, name := "Toronto", scraping_enabled := true }]
          source_documents := []
          scraping_jobs := [{ id := 7, municipality_id := 1, status := "completed" }] }
        1).municipalities = [] := by
  exact ⟨by decide, by decide⟩

/-- C8 (amended): deleteMunicipality removes the municipality row and, through
the schema's ON DELETE CASCADE clauses, every dependent source_documents and
scraping_jobs row, so no surviving row references the deleted site; unrelated
municipalities survive. -/
theorem deleteMunicipality_cascades (db : MunicipalityDb) (mid : Nat) :
    (∀ m ∈ (deleteMunicipality db mid).municipalities, m.id ≠ mid) ∧
    (∀ d ∈ (deleteMunicipality db mid).source_documents, d.municipality_id ≠ mid) ∧
    (∀ j ∈ (deleteMunicipality db mid).scraping_jobs, j.municipality_id ≠ mid) ∧
    (∀ m ∈ db.municipalities, m.id ≠ mid →
      m ∈ (deleteMunicipality db mid).municipalities) := by
  refine ⟨?_, ?_, ?_, ?_⟩
  · intro m hm
    simp [deleteMunicipality, List.mem_filter] at hm
    exact hm.2
  · intro d hd
    simp [deleteMunicipality, List.mem_filter] at hd
    exact hd.2
  · intro j hj
    simp [deleteMunicipality, List.mem_filter] at hj
    exact hj.2
  · intro m hm hne
    simp [deleteMunicipality, List.mem_filter]
    exact ⟨hm, hne⟩

/-- Concrete check of deleteMunicipality_cascades: deleting one municipality
leaves the other present. -/
theorem deleteMunicipality_cascades_witness :
    ({ id := 2, name := "Vancouver", scraping_enabled := true } : Municipality) ∈
      (deleteMunicipality
        { municipalities :=
            [{ id := 1, name := "Toronto", scraping_enabled := true },
             { id := 2, name := "Vancouver", scraping_enabled := true }]
          source_documents := []
          scraping_jobs := [] } 1).municipalities := by
  exact (deleteMunicipality_cascades
    { municipalities :=
        [{ id := 1, name := "Toronto", scraping_enabled := true },
         { id := 2, name := "Vancouver", scraping_enabled := true }]
      source_documents := []
      scraping_jobs := [] } 1).2.2.2 _ (by decide) (by decide)

/-! Pipeline lemmas. -/

/-- Anatomy of a successful runJob call: the site list, provenance records and
documents are untouched, no job for the site was running, and the new running
job is registered in front. -/
theorem runJob_ok {s : PipelineState} {siteId jobId : Nat} {s' : PipelineState}
    (h : runJob s siteId = (Except.ok jobId, s')) :
    s'.sites = s.sites ∧
    s'.jobs = { id := s.nextJobId, siteId := siteId, status := JobStatus.running } :: s.jobs ∧
    s'.sourceDocs = s.sourceDocs ∧ s'.docs = s.docs ∧
    hasRunningJob s siteId = false := by
  unfold runJob at h
  split at h
  · simp at h
  · rename_i site hfind
    split_ifs at h with h1 h2
    · simp at h
    · simp at h
    · have hs' : ({ s with
          jobs := { id := s.nextJobId, siteId := siteId, status := JobStatus.running } :: s.jobs
          nextJobId := s.nextJobId + 1 } : PipelineState) = s' := congrArg Prod.snd h
      rw [← hs']
      exact ⟨rfl, rfl, rfl, rfl, Bool.eq_false_iff.mpr h2⟩

/-- applyCaptureState only rewrites the document list. -/
theorem applyCaptureState_frame (s : PipelineState) (docId : Nat) (sd : SourceDocument) :
    (applyCaptureState s docId sd).2.jobs = s.jobs ∧
    (applyCaptureState s docId sd).2.sourceDocs = s.sourceDocs ∧
    (applyCaptureState s docId sd).2.sites = s.sites := by
  unfold applyCaptureState
  split
  · exact ⟨rfl, rfl, rfl⟩
  · exact ⟨rfl, rfl, rfl⟩

/-- Each value from 1 to n occurs exactly once in seqList n. -/
theorem seqList_countP (n k : Nat) :
    (seqList n).countP (fun m => m == k) = if 1 ≤ k ∧ k ≤ n then 1 else 0 := by
  induction n with
  | zero =>
    simp only [seqList, List.countP_nil]
    split_ifs <;> omega
  | succ n ih =>
    simp only [seqList, List.countP_cons, ih, beq_iff_eq]
    split_ifs <;> omega

/-- The currency flip keeps the document id. -/
theorem applyCapture_id (d : TrackedDocument) (sd : SourceDocument) :
    (applyCapture d sd).2.id = d.id := by
  unfold applyCapture promoteNewVersion
  split
  · split <;> rfl
  · rfl

/-- The promoted version becomes the current one. -/
theorem promote_current (d : TrackedDocument) (fp : String) (sdId : Nat) :
    currentVersion (promoteNewVersion d fp sdId).2 =
      some { seq := d.versions.length + 1, fingerprint := fp, sourceDocId := sdId,
             isCurrent := true } := by
  unfold promoteNewVersion currentVersion
  exact List.find?_cons_of_pos _ rfl

/-- The version list produced by the currency flip. -/
theorem promote_versions (d : TrackedDocument) (fp : String) (sdId : Nat) :
    (promoteNewVersion d fp sdId).2.versions =
      ({ seq := d.versions.length + 1, fingerprint := fp, sourceDocId := sdId,
         isCurrent := true } : DocumentVersion) ::
        d.versions.map (fun v => { v with isCurrent := false }) := rfl

/-- The currency flip preserves the per-document invariant. -/
theorem promote_docInvariant (d : TrackedDocument) (fp : String) (sdId : Nat)
    (h : docInvariant d) : docInvariant (promoteNewVersion d fp sdId).2 := by
  obtain ⟨hseq, hcur⟩ := h
  unfold docInvariant
  rw [promote_versions]
  constructor
  · simp only [List.map_cons, List.map_map, List.length_cons, List.length_map]
    have hcomp : ((fun v : DocumentVersion => v.seq) ∘
        (fun v : DocumentVersion => { v with isCurrent := false })) =
        (fun v : DocumentVersion => v.seq) := rfl
    rw [hcomp, hseq]
    rfl
  · refine ⟨rfl, ?_⟩
    intro u hu
    obtain ⟨v, hv, rfl⟩ := List.mem_map.mp hu
    rfl

/-- applyCapture preserves the per-document invariant. -/
theorem applyCapture_docInvariant (d : TrackedDocument) (sd : SourceDocument)
    (h : docInvariant d) : docInvariant (applyCapture d sd).2 := by
  unfold applyCapture
  split
  · split
    · exact h
    · exact promote_docInvariant d sd.content_hash sd.id h
  · exact promote_docInvariant d sd.content_hash sd.id h

/-- Replacing the found document by one sharing its id leaves it the first
match. -/
theorem find?_map_replace (l : List TrackedDocument) (docId : Nat) (d0 d2 : TrackedDocument)
    (hfind : l.find? (fun d => d.id == docId) = some d0) (hid : d2.id = d0.id) :
    (l.map (fun d => if d.id == docId then d2 else d)).find? (fun d => d.id == docId) =
      some d2 := by
  induction l with
  | nil => simp at hfind
  | cons a l ih =>
    simp only [List.map_cons]
    by_cases ha : a.id = docId
    · rw [List.find?_cons_of_pos _ (by simp [ha])] at hfind
      injection hfind with hfind
      subst hfind
      have hh : (if a.id == docId then d2 else a) = d2 := by simp [ha]
      rw [hh]
      exact List.find?_cons_of_pos _ (by simp [hid, ha])
    · rw [List.find?_cons_of_neg _ (by simp [ha])] at hfind
      have hh : (if a.id == docId then d2 else a) = a := by simp [ha]
      rw [hh]
      rw [List.find?_cons_of_neg _ (by simp [ha])]
      exact ih hfind

/-- With no running job for the site, the per-site running count is zero. -/
theorem hasRunningJob_false_countP {s : PipelineState} {siteId : Nat}
    (h : hasRunningJob s siteId = false) :
    s.jobs.countP (fun j => j.siteId == siteId && j.status == JobStatus.running) = 0 := by
  unfold hasRunningJob at h
  rw [List.countP_eq_zero]
  intro j hj hpj
  rw [List.any_eq_false] at h
  exact h j hj hpj

/-- A pointwise-reflected predicate cannot gain matches under map. -/
theorem countP_le_of_map (l : List CaptureJob) (f : CaptureJob → CaptureJob)
    (p : CaptureJob → Bool) (hf : ∀ x ∈ l, p (f x) = true → p x = true) :
    (l.map f).countP p ≤ l.countP p := by
  induction l with
  | nil => simp
  | cons a l ih =>
    simp only [List.map_cons, List.countP_cons]
    have hrec := ih (fun x hx => hf x (List.mem_cons_of_mem _ hx))
    by_cases hpa : p (f a) = true
    · have hpa2 := hf a (List.mem_cons_self _ _) hpa
      simp only [hpa, hpa2, if_true]
      omega
    · have h0 : (if p (f a) then 1 else 0) = 0 := by simp [hpa]
      rw [h0]
      have h1 : (if p a then (1 : Nat) else 0) ≤ 1 := by split <;> omega
      omega

/-- Every reachable state satisfies the per-document invariant. -/
theorem reachable_docInvariant {s : PipelineState} (hs : Reachable s) :
    ∀ d ∈ s.docs, docInvariant d := by
  induction hs with
  | init sites docIds =>
    intro d hd
    simp only [initState, List.mem_map] at hd
    obtain ⟨i, hi, rfl⟩ := hd
    exact ⟨rfl, trivial⟩
  | step hr hstep ih =>
    intro d hd
    rename_i s0 s1
    cases hstep with
    | runJob siteId jobId s' hok =>
      rw [(runJob_ok hok).2.2.2.1] at hd
      exact ih d hd
    | finishJob jobId final hfin =>
      exact ih d hd
    | preserve siteId url content wr we =>
      exact ih d hd
    | applyCapture docId sd hmem hst =>
      unfold applyCaptureState at hd
      rcases hfind : s0.docs.find? (fun d => d.id == docId) with _ | dd
      · rw [hfind] at hd
        exact ih d hd
      · rw [hfind] at hd
        simp only [List.mem_map] at hd
        obtain ⟨d1, hd1, rfl⟩ := hd
        by_cases hid : d1.id == docId
        · rw [if_pos hid]
          exact applyCapture_docInvariant dd sd (ih dd (List.mem_of_find?_eq_some hfind))
        · rw [if_neg hid]
          exact ih d1 hd1

/-- captureRun is preservation followed by change detection. -/
theorem captureRun_eq (s : PipelineState) (docId siteId : Nat) (url content : String) :
    captureRun s docId siteId url content =
      applyCaptureState (preserve s siteId url content [true] "").2 docId
        (preserve s siteId url content [true] "").1 := rfl

/-- After applyCapture the document's current version carries the provenance
record's hash. -/
theorem applyCapture_current_hash (d : TrackedDocument) (sd : SourceDocument) :
    ∃ v, currentVersion (applyCapture d sd).2 = some v ∧
      v.fingerprint = sd.content_hash := by
  unfold applyCapture
  rcases hc : currentVersion d with _ | cur
  · simp only [hc]
    exact ⟨_, promote_current d sd.content_hash sd.id, rfl⟩
  · simp only [hc]
    by_cases hf : (cur.fingerprint == sd.content_hash) = true
    · rw [if_pos hf]
      exact ⟨cur, hc, by simpa using hf⟩
    · rw [if_neg hf]
      exact ⟨_, promote_current d sd.content_hash sd.id, rfl⟩

/-- applyCaptureState over a no-change capture returns NoChange and leaves
both the provenance list and the found document as they were. -/
theorem applyCaptureState_noChange (s : PipelineState) (docId : Nat) (sd : SourceDocument)
    (d1 : TrackedDocument) (hfind : s.docs.find? (fun d => d.id == docId) = some d1)
    (hnc : applyCapture d1 sd = (CaptureResult.noChange, d1)) :
    (applyCaptureState s docId sd).1 = CaptureResult.noChange ∧
    (applyCaptureState s docId sd).2.sourceDocs = s.sourceDocs ∧
    (applyCaptureState s docId sd).2.docs.find? (fun d => d.id == docId) = some d1 := by
  unfold applyCaptureState
  simp only [hfind, hnc]
  refine ⟨trivial, trivial, ?_⟩
  exact find?_map_replace s.docs docId d1 d1 hfind rfl

/-- When the document is found, applyCaptureState replaces it by its updated
value, still found first under its id. -/
theorem applyCaptureState_found (s : PipelineState) (docId : Nat) (sd : SourceDocument)
    (d0 : TrackedDocument) (hfind : s.docs.find? (fun d => d.id == docId) = some d0) :
    (applyCaptureState s docId sd).2.docs.find? (fun d => d.id == docId) =
      some (applyCapture d0 sd).2 := by
  unfold applyCaptureState
  simp only [hfind]
  exact find?_map_replace s.docs docId d0 _ hfind (applyCapture_id d0 sd)

/-- After a successful capture run the tracked document's current version
carries the fingerprint of the captured content. -/
theorem captureRun_hash (s : PipelineState) (docId siteId : Nat) (url content : String)
    (d0 : TrackedDocument) (hd : s.docs.find? (fun d => d.id == docId) = some d0) :
    ∃ d1, (captureRun s docId siteId url content).2.docs.find?
        (fun d => d.id == docId) = some d1 ∧
      ∃ v, currentVersion d1 = some v ∧ v.fingerprint = contentFingerprint content := by
  have hdocs : (preserve s siteId url content [true] "").2.docs.find?
      (fun d => d.id == docId) = some d0 := hd
  have hfound := applyCaptureState_found (preserve s siteId url content [true] "").2 docId
    (preserve s siteId url content [true] "").1 d0 hdocs
  refine ⟨(applyCapture d0 (preserve s siteId url content [true] "").1).2, ?_, ?_⟩
  · rw [captureRun_eq]
    exact hfound
  · obtain ⟨v, hv, hvfp⟩ :=
      applyCapture_current_hash d0 (preserve s siteId url content [true] "").1
    exact ⟨v, hv, hvfp⟩

/-- Rerunning an identical capture yields NoChange, one fresh provenance
record in front, and unchanged versions for the captured document. -/
theorem captureRun_rerun (s : PipelineState) (docId siteId : Nat) (url content : String)
    (d0 : TrackedDocument) (hd : s.docs.find? (fun d => d.id == docId) = some d0) :
    (captureRun (captureRun s docId siteId url content).2 docId siteId url content).1 =
        CaptureResult.noChange ∧
    (captureRun (captureRun s docId siteId url content).2 docId siteId
        url content).2.sourceDocs =
      (preserve (captureRun s docId siteId url content).2 siteId url content [true] "").1 ::
        (captureRun s docId siteId url content).2.sourceDocs ∧
    docVersions (captureRun (captureRun s docId siteId url content).2 docId siteId
        url content).2 docId =
      docVersions (captureRun s docId siteId url content).2 docId := by
  obtain ⟨d1, hfind1, v, hcur, hfp⟩ := captureRun_hash s docId siteId url content d0 hd
  set s1 := (captureRun s docId siteId url content).2 with hs1
  have hhash2 : (preserve s1 siteId url content [true] "").1.content_hash =
      contentFingerprint content := rfl
  have hnc : applyCapture d1 (preserve s1 siteId url content [true] "").1 =
      (CaptureResult.noChange, d1) := by
    unfold applyCapture
    have hbeq : (v.fingerprint ==
        (preserve s1 siteId url content [true] "").1.content_hash) = true := by
      rw [hhash2, hfp]
      simp
    simp only [hcur, hbeq, if_true]
  have hfind1' : (preserve s1 siteId url content [true] "").2.docs.find?
      (fun d => d.id == docId) = some d1 := hfind1
  have H := applyCaptureState_noChange (preserve s1 siteId url content [true] "").2 docId
    (preserve s1 siteId url content [true] "").1 d1 hfind1' hnc
  rw [captureRun_eq s1 docId siteId url content]
  refine ⟨H.1, ?_, ?_⟩
  · rw [H.2.1]
    rfl
  · unfold docVersions
    rw [H.2.2, hfind1]

/-- C1: in every reachable pipeline state, each tracked document with at least
one version has exactly one current version, and each sequence number from 1
to the version count occurs exactly once — contiguous and never reused; the
invariant is maintained by every pipeline step, in particular by the atomic
currency flip of applyCapture. -/
theorem version_currency_invariant (s : PipelineState) (hs : Reachable s)
    (d : TrackedDocument) (hd : d ∈ s.docs) :
    (d.versions ≠ [] → d.versions.countP (fun v => v.isCurrent) = 1) ∧
    (∀ k : Nat, d.versions.countP (fun v => v.seq == k) =
      if 1 ≤ k ∧ k ≤ d.versions.length then 1 else 0) := by
  obtain ⟨hseq, hcur⟩ := reachable_docInvariant hs d hd
  constructor
  · intro hne
    rcases hv : d.versions with _ | ⟨v, vs⟩
    · exact absurd hv hne
    · rw [hv] at hcur
      obtain ⟨hvcur, hrest⟩ := hcur
      have h0 : vs.countP (fun v => v.isCurrent) = 0 :=
        List.countP_eq_zero.mpr (fun u hu => by simp [hrest u hu])
      simp [List.countP_cons, h0, hvcur]
  · intro k
    have hmap : (d.versions.map (fun v => v.seq)).countP (fun m => m == k) =
        d.versions.countP (fun v => v.seq == k) := by
      rw [List.countP_map]
      rfl
    rw [← hmap, hseq, seqList_countP]

/-- Concrete check of version_currency_invariant: after one preservation and
one capture the single version is current and carries sequence number 1. -/
theorem version_currency_invariant_witness :
    demoDoc ∈ demoS2.docs ∧
    demoDoc.versions.countP (fun v => v.isCurrent) = 1 ∧
    demoDoc.versions.countP (fun v => v.seq == 1) =
      (if 1 ≤ 1 ∧ 1 ≤ demoDoc.versions.length then 1 else 0) := by
  have hreach : Reachable demoS2 :=
    Reachable.step
      (Reachable.step (Reachable.init [{ id := 1, enabled := true }] [5])
        (Step.preserve demoS0 1 "u" "c" [true] ""))
      (Step.applyCapture demoS1 5 demoSd (by decide) (by decide))
  have h := version_currency_invariant demoS2 hreach demoDoc (by decide)
  exact ⟨by decide, h.1 (by decide), h.2 1⟩

/-- C2: every pipeline step leaves an existing preserved SourceDocument record
present unchanged (re-fetches append fresh records), and a preservation with
any failed artifact write yields status failed with the error recorded — never
preserved. -/
theorem preserved_source_documents_immutable :
    (∀ (s s' : PipelineState), Step s s' → ∀ sd ∈ s.sourceDocs,
      sd.preservation_status = PreservationStatus.preserved → sd ∈ s'.sourceDocs) ∧
    (∀ (s : PipelineState) (siteId : Nat) (url content : String)
      (writeResults : List Bool) (writeError : String),
      (∃ w ∈ writeResults, w = false) →
      (preserve s siteId url content writeResults writeError).1.preservation_status =
        PreservationStatus.failed ∧
      (preserve s siteId url content writeResults writeError).1.preservation_error =
        some writeError ∧
      (preserve s siteId url content writeResults writeError).1.preservation_status ≠
        PreservationStatus.preserved) := by
  constructor
  · intro s s' hstep sd hsd hpres
    cases hstep with
    | runJob siteId jobId s2 hok =>
      rw [(runJob_ok hok).2.2.1]
      exact hsd
    | finishJob jobId final hfin =>
      exact hsd
    | preserve siteId url content wr we =>
      exact List.mem_cons_of_mem _ hsd
    | applyCapture docId sd2 hmem hst =>
      rw [(applyCaptureState_frame s docId sd2).2.1]
      exact hsd
  · intro s siteId url content writeResults writeError hfail
    have hok : writeResults.all (fun b => b) = false := by
      rcases hfail with ⟨w, hw, rfl⟩
      cases hall : writeResults.all (fun b => b) with
      | false => rfl
      | true =>
        have := List.all_eq_true.mp hall false hw
        simp at this
    refine ⟨?_, ?_, ?_⟩ <;> simp [preserve, hok]

/-- Concrete check of preserved_source_documents_immutable: the demonstration
provenance record survives a later preservation step, and a failed artifact
write yields a failed record. -/
theorem preserved_source_documents_immutable_witness :
    demoSd ∈ (preserve demoS1 1 "u2" "c2" [true] "").2.sourceDocs ∧
    (preserve demoS0 1 "u" "c" [false] "disk full").1.preservation_status =
      PreservationStatus.failed := by
  constructor
  · exact preserved_source_documents_immutable.1 demoS1 _
      (Step.preserve demoS1 1 "u2" "c2" [true] "") demoSd (by decide) (by decide)
  · exact (preserved_source_documents_immutable.2 demoS0 1 "u" "c" [false] "disk full"
      ⟨false, by decide, rfl⟩).1

/-- C3: when the current fingerprint matches the new provenance record's
fingerprint, applyCapture returns NoChange and leaves the document untouched;
and rerunning an identical capture yields NoChange on the second run, exactly
one fresh SourceDocument — itself preserved and persisted — and zero new
versions for the captured document. -/
theorem capture_idempotent_on_unchanged :
    (∀ (d : TrackedDocument) (sd : SourceDocument) (cur : DocumentVersion),
      currentVersion d = some cur → cur.fingerprint = sd.content_hash →
      applyCapture d sd = (CaptureResult.noChange, d)) ∧
    (∀ (s : PipelineState) (docId siteId : Nat) (url content : String)
      (d0 : TrackedDocument),
      s.docs.find? (fun d => d.id == docId) = some d0 →
      (captureRun (captureRun s docId siteId url content).2 docId siteId url content).1 =
          CaptureResult.noChange ∧
      (captureRun (captureRun s docId siteId url content).2 docId siteId
          url content).2.sourceDocs.length =
        (captureRun s docId siteId url content).2.sourceDocs.length + 1 ∧
      docVersions (captureRun (captureRun s docId siteId url content).2 docId siteId
          url content).2 docId =
        docVersions (captureRun s docId siteId url content).2 docId ∧
      (preserve (captureRun s docId siteId url content).2 siteId url content [true] "").1 ∈
        (captureRun (captureRun s docId siteId url content).2 docId siteId
          url content).2.sourceDocs ∧
      (preserve (captureRun s docId siteId url content).2 siteId url content [true]
          "").1.preservation_status = PreservationStatus.preserved) := by
  constructor
  · intro d sd cur hcur hfp
    unfold applyCapture
    have hbeq : (cur.fingerprint == sd.content_hash) = true := by simp [hfp]
    simp only [hcur, hbeq, if_true]
  · intro s docId siteId url content d0 hd
    obtain ⟨h1, h2, h3⟩ := captureRun_rerun s docId siteId url content d0 hd
    refine ⟨h1, ?_, h3, ?_, rfl⟩
    · rw [h2]
      rfl
    · rw [h2]
      exact List.mem_cons_self _ _

/-- Concrete check of capture_idempotent_on_unchanged: the demonstration
document with its captured content, and a double capture run from the initial
state. -/
theorem capture_idempotent_on_unchanged_witness :
    applyCapture demoDoc demoSd = (CaptureResult.noChange, demoDoc) ∧
    (captureRun (captureRun demoS0 5 1 "u" "c").2 5 1 "u" "c").1 =
      CaptureResult.noChange := by
  constructor
  · exact capture_idempotent_on_unchanged.1 demoDoc demoSd
      { seq := 1, fingerprint := "c", sourceDocId := 0, isCurrent := true } rfl rfl
  · exact (capture_idempotent_on_unchanged.2 demoS0 5 1 "u" "c"
      { id := 5, versions := [] } (by decide)).1

/-- C4: in every reachable state at most one job per site is running, and a
runJob call for an enabled site that already has a running job returns exactly
the conflict error with the state unchanged — no second job is registered. -/
theorem single_running_job_per_site :
    (∀ s : PipelineState, Reachable s → ∀ siteId : Nat,
      s.jobs.countP (fun j => j.siteId == siteId && j.status == JobStatus.running) ≤ 1) ∧
    (∀ (s : PipelineState) (siteId : Nat) (site : TrackedSite),
      s.sites.find? (fun t => t.id == siteId) = some site →
      site.enabled = true →
      hasRunningJob s siteId = true →
      runJob s siteId = (Except.error JobError.conflict, s)) := by
  constructor
  · intro s hs
    induction hs with
    | init sites docIds =>
      intro siteId
      simp [initState]
    | step hr hstep ih =>
      rename_i s0 s1
      intro siteId
      cases hstep with
      | runJob siteId0 jobId s' hok =>
        obtain ⟨-, hjobs, -, -, hnorun⟩ := runJob_ok hok
        rw [hjobs]
        simp only [List.countP_cons]
        by_cases hsite : siteId0 = siteId
        · subst hsite
          rw [hasRunningJob_false_countP hnorun]
          split <;> omega
        · have hn := ih siteId
          split
          · rename_i htrue
            simp at htrue
            exact absurd htrue hsite
          · omega
      | finishJob jobId final hfin =>
        have hmap : (finishJob s0 jobId final).jobs = s0.jobs.map (fun j =>
            if j.id == jobId && j.status == JobStatus.running
            then { j with status := final } else j) := rfl
        rw [hmap]
        refine le_trans (countP_le_of_map _ _ _ ?_) (ih siteId)
        intro x hx hpx
        by_cases hc : (x.id == jobId && x.status == JobStatus.running) = true
        · rw [if_pos hc] at hpx
          rcases hfin with rfl | rfl | rfl <;> simp at hpx
        · rw [if_neg hc] at hpx
          exact hpx
      | preserve siteId0 url content wr we =>
        exact ih siteId
      | applyCapture docId sd hmem hst =>
        rw [(applyCaptureState_frame s0 docId sd).1]
        exact ih siteId
  · intro s siteId site hfind henabled hrun
    unfold runJob
    simp only [hfind, henabled, hrun]
    simp

/-- Concrete check of single_running_job_per_site at the demonstration state
holding one running job: the running count is at most one, and a second
runJob call returns the conflict error leaving the registry unchanged. -/
theorem single_running_job_per_site_witness :
    demoSJob.jobs.countP (fun j => j.siteId == 1 && j.status == JobStatus.running) ≤ 1 ∧
    runJob demoSJob 1 = (Except.error JobError.conflict, demoSJob) := by
  constructor
  · exact single_running_job_per_site.1 demoSJob
      (Reachable.step (Reachable.init [{ id := 1, enabled := true }] [5])
        (Step.runJob demoS0 1 0 demoSJob rfl)) 1
  · exact single_running_job_per_site.2 demoSJob 1 { id := 1, enabled := true }
      (by decide) rfl (by decide)

end BylawDb
